import Mathlib

/-!
Verification of the PassWeaver (`pwv.py`) rule-driven password-candidate
generator: a shallow embedding of its parsing, expansion, filtering and
resumable-session logic, together with theorems settling the specification
claims.

Conventions of the embedding:
* Python strings are Lean `String`s; the case/class character operations
  (`str.upper`, `str.lower`, `str.isupper`, `str.isalnum`) are modelled for
  the ASCII range, which is the range the program's data and tables use.
* Python's `int(...)` builtin is modelled by `pyParseInt` (ASCII digits,
  optional sign, surrounding whitespace, single underscores between digits).
* A Python `set` built by successive `add` calls is modelled by the
  insertion-ordered duplicate-free list `dedupFirst` of the added elements.
  The unspecified iteration order of a Python set is modelled by an explicit
  `order` parameter where the program iterates over a set
  (`generate_to_file`).
-/

/-! ## ASCII models of Python character/string methods -/

/-- ASCII model of Python `str.isupper` for a single character. -/
def charIsUpper (c : Char) : Bool := 65 ≤ c.toNat && c.toNat ≤ 90

/-- ASCII model of Python `str.islower` for a single character. -/
def charIsLower (c : Char) : Bool := 97 ≤ c.toNat && c.toNat ≤ 122

/-- ASCII model of Python `str.upper` for a single character. -/
def charUpper (c : Char) : Char :=
  if 97 ≤ c.toNat ∧ c.toNat ≤ 122 then Char.ofNat (c.toNat - 32) else c

/-- ASCII model of Python `str.lower` for a single character. -/
def charLower (c : Char) : Char :=
  if 65 ≤ c.toNat ∧ c.toNat ≤ 90 then Char.ofNat (c.toNat + 32) else c

/-- ASCII model of Python `str.isalnum` for a single character. -/
def charIsAlnum (c : Char) : Bool :=
  charIsUpper c || charIsLower c || (48 ≤ c.toNat && c.toNat ≤ 57)

/-- ASCII model of Python `str.upper`. -/
def strUpper (s : String) : String := String.mk (s.toList.map charUpper)

/-- ASCII model of Python `str.lower`. -/
def strLower (s : String) : String := String.mk (s.toList.map charLower)

/-- ASCII whitespace characters stripped by Python `str.strip()`. -/
def pyIsSpace (c : Char) : Bool :=
  c = ' ' || c = '\t' || c = '\n' || c = '\r' || c = '\x0b' || c = '\x0c'

/-- Model of Python `str.strip()` on a character list. -/
def pyStripChars (l : List Char) : List Char :=
  ((l.dropWhile pyIsSpace).reverse.dropWhile pyIsSpace).reverse

/-- Model of Python `str.strip()`. -/
def pyStripS (s : String) : String := String.mk (pyStripChars s.toList)

/-- Model of Python `s.startswith(pre)` (all Lean `String` primitives in
this file are replaced by character-list recursions so that every
definition reduces). -/
def pyStartsWith (s pre : String) : Bool := pre.toList.isPrefixOf s.toList

/-- The first `n` characters of `s`, like Python `s[:n]`. -/
def pyTakeChars (s : String) (n : Nat) : String := String.mk (s.toList.take n)

/-- All but the first `n` characters of `s`, like Python `s[n:]`. -/
def pyDropChars (s : String) (n : Nat) : String := String.mk (s.toList.drop n)

/-- Model of Python `sep.join(parts)`. -/
def pyIntercalate (sep : String) : List String → String
  | [] => ""
  | [x] => x
  | x :: xs => x ++ sep ++ pyIntercalate sep xs

/-- Worker for `pySplit`: scans the character list for the leftmost
occurrence of the (nonempty) separator, splitting there, with fuel equal
to the list length so the recursion is structural. -/
def pySplitChars (sep : List Char) : Nat → List Char → List Char → List (List Char)
  | _, [], acc => [acc.reverse]
  | 0, l, acc => [acc.reverse ++ l]
  | fuel + 1, c :: rest, acc =>
      if sep.isPrefixOf (c :: rest) ∧ sep ≠ [] then
        acc.reverse :: pySplitChars sep fuel ((c :: rest).drop sep.length) []
      else pySplitChars sep fuel rest (c :: acc)

/-- Model of Python `s.split(sep)` for a nonempty separator: the parts
between the leftmost non-overlapping occurrences of `sep` (so `""` splits
to `[""]`, and adjacent separators yield empty parts). -/
def pySplit (s sep : String) : List String :=
  (pySplitChars sep.toList s.toList.length s.toList []).map String.mk

/-- Digit tail of a Python integer literal: digits with single underscores
allowed between digits (`1_0` is valid, `1__0`, `1_` are not). -/
def digitsRest : List Char → Nat → Option Nat
  | [], acc => some acc
  | '_' :: c :: rest, acc =>
      if c.isDigit then digitsRest rest (acc * 10 + (c.toNat - 48)) else none
  | ['_'], _ => none
  | c :: rest, acc =>
      if c.isDigit then digitsRest rest (acc * 10 + (c.toNat - 48)) else none

/-- A nonempty ASCII digit run (with inner underscores), as a `Nat`. -/
def startDigits : List Char → Option Nat
  | [] => none
  | c :: rest => if c.isDigit then digitsRest rest (c.toNat - 48) else none

/-- ASCII model of Python's `int(...)` builtin on strings: optional
surrounding whitespace, optional single sign, digits with single underscores
between them; `none` models the `ValueError` raised on anything else. -/
def pyParseInt (s : String) : Option Int :=
  match pyStripChars s.toList with
  | '+' :: rest => (startDigits rest).map (fun n => (n : Int))
  | '-' :: rest => (startDigits rest).map (fun n => -(n : Int))
  | l => (startDigits l).map (fun n => (n : Int))

/-- `natOfDigits` interprets a string of ASCII digits (as produced by the
`(\d*)` regex group in `parse_rule`) as a natural number, like `int`. -/
def natOfDigits (s : String) : Nat :=
  s.toList.foldl (fun a c => a * 10 + (c.toNat - 48)) 0

/-- Model of Python `s.split(sep, maxsplit)` for a nonempty separator:
at most `maxs` splits, the remainder rejoined into the final part. -/
def pySplitMax (s sep : String) (maxs : Nat) : List String :=
  let parts := pySplit s sep
  if parts.length ≤ maxs + 1 then parts
  else parts.take maxs ++ [pyIntercalate sep (parts.drop maxs)]

/-- Model of Python's `sub in s` substring test, for nonempty `sub`:
`pySplit` yields at least two parts exactly when `sub` occurs in `s`. -/
def strContains (s sub : String) : Bool := (pySplit s sub).length ≥ 2

/-- Python-truthiness of an `Optional[str]`: `None` and `""` are falsy. -/
def optTruthy : Option String → Bool
  | none => false
  | some s => !(s == "")

/-- Model of Python `s[-n:]`: the last `n` characters (whole string if
shorter). -/
def takeRightStr (n : Nat) (s : String) : String := pyDropChars s (s.length - n)

/-! ## Generator helpers (`pwv.py` lines 148-297) -/

/-- The `leet_mapping` table of `generate_leet_variants`
(`pwv.py` lines 149-156), keyed by lowercase character. -/
def leetTable (c : Char) : Option (List Char) :=
  if c = 'a' then some ['a', '@']
  else if c = 'e' then some ['e', '3']
  else if c = 'i' then some ['i', '1']
  else if c = 'o' then some ['o', '0']
  else if c = 's' then some ['s', '$', '5']
  else if c = 't' then some ['t', '7']
  else none

/-- Per-character options of `generate_leet_variants`
(`pwv.py` lines 157-162): case-insensitive lookup with the original
character as default; options are uppercased when the original character is
uppercase. -/
def leetOptions (c : Char) : List Char :=
  let options := (leetTable (charLower c)).getD [c]
  if charIsUpper c then options.map charUpper else options

/-- `itertools.product` over per-position option lists, in Python's order
(first position varies slowest). -/
def cartesianChars : List (List Char) → List (List Char)
  | [] => [[]]
  | os :: rest => os.flatMap (fun o => (cartesianChars rest).map (fun t => o :: t))

/-- `generate_leet_variants` (`pwv.py` lines 148-164). -/
def generate_leet_variants (word : String) : List String :=
  (cartesianChars (word.toList.map leetOptions)).map String.mk

/-- Uppercase the character at index `idx` (in range), as
`result[idx] = result[idx].upper()` does. -/
def upperAtIdx (l : List Char) (idx : Nat) : List Char :=
  match l.get? idx with
  | some c => l.set idx (charUpper c)
  | none => l

/-- The position loop of `apply_case_pattern` (`pwv.py` lines 174-186):
left fold over the comma-separated entries, `L` uppercasing the last
character, numeric entries uppercasing the in-range 1-based position, and
entries that fail `int(...)` ignored. -/
def applyPositions (positions : List String) (start : List Char) : List Char :=
  positions.foldl (fun res pos =>
    if pos = "L" then
      match res.getLast? with
      | some c => res.set (res.length - 1) (charUpper c)
      | none => res
    else
      match pyParseInt pos with
      | some k =>
          if 0 ≤ k - 1 ∧ k - 1 < (res.length : Int) then upperAtIdx res (k - 1).toNat
          else res
      | none => res) start

/-- `apply_case_pattern` (`pwv.py` lines 166-187). -/
def apply_case_pattern (case_pattern replacement : String) : String :=
  if ¬ pyStartsWith case_pattern "u:" then replacement
  else
    let pat := pyDropChars case_pattern 2
    if pat = "A" then strUpper replacement
    else if pat = "N" then strLower replacement
    else String.mk (applyPositions (pySplit pat ",") (strLower replacement).toList)

/-- The 4-tuple returned by `parse_date`. -/
structure DateComponents where
  day : Option String
  month : Option String
  year : Option String
  shortYear : Option String
deriving DecidableEq

/-- `parse_date` (`pwv.py` lines 189-197): components of a `D/M/YYYY`
string, all-`none` unless it splits into exactly three `/`-parts. -/
def parse_date (date_str : String) : DateComponents :=
  if date_str = "" then ⟨none, none, none, none⟩
  else
    match pySplit date_str "/" with
    | [d, m, y] => ⟨some d, some m, some y, some (takeRightStr 2 y)⟩
    | _ => ⟨none, none, none, none⟩

/-- `generate_numbers_from_date` (`pwv.py` lines 199-224): the twelve
derived numeric strings; the `try`/`except` around the `int(...)` calls is
modelled by matching on `pyParseInt`. -/
def generate_numbers_from_date (date_str : String) : List String :=
  match pySplit date_str "/" with
  | [day, month, year] =>
    match pyParseInt day, pyParseInt month with
    | some d, some m =>
      let day_str := toString d
      let month_str := toString m
      let year_str := pyStripS year
      let last_two_year := takeRightStr 2 year_str
      [year_str,
       last_two_year,
       day_str ++ month_str,
       day_str ++ month_str ++ year_str,
       day_str ++ month_str ++ last_two_year,
       month_str ++ day_str,
       month_str ++ day_str ++ year_str,
       month_str ++ day_str ++ last_two_year,
       year_str ++ month_str ++ day_str,
       last_two_year ++ month_str ++ day_str,
       year_str ++ day_str ++ month_str,
       last_two_year ++ day_str ++ month_str]
    | _, _ => []
  | _ => []

/-! ## Rule parsing (`pwv.py` lines 226-297) -/

/-- The token dictionaries produced by `parse_rule`; the `index` field is
stored for `string`/`string_leet`/`character` tokens (and, as in the
source, never read by the expander). -/
inductive Token where
  | str (casePattern : String) (index : Nat)
  | strLeet (casePattern : String) (index : Nat)
  | character (casePattern : String) (index : Nat)
  | day
  | month
  | year
  | shortYear
  | fullDate
  | symbol
  | commonNumber
  | number
  | literal (value : String)
deriving DecidableEq

/-- Whether a token dictionary has `type == "literal"`. -/
def Token.isLiteral : Token → Bool
  | .literal _ => true
  | _ => false

/-- Whether a token's type is one of
`day`, `month`, `year`, `short_year`, `full_date` (`pwv.py` line 313). -/
def Token.isDateType : Token → Bool
  | .day | .month | .year | .shortYear | .fullDate => true
  | _ => false

/-- Model of `re.match(kw + r'(\d*):u:', token)`: when `token` starts with
`kw` followed by a (possibly empty) digit run followed by `:u:`, returns
the digit run. -/
def matchIdxDigits (kw token : String) : Option String :=
  if pyStartsWith token kw then
    let rest := pyDropChars token kw.length
    let digits := String.mk (rest.toList.takeWhile Char.isDigit)
    if pyStartsWith (pyDropChars rest digits.length) ":u:" then some digits else none
  else none

/-- Classification of one rule token, following the `if`/`elif` chain of
`parse_rule` (`pwv.py` lines 229-296). -/
def parseToken (token : String) : Token :=
  if pyStartsWith token "string:" || pyStartsWith token "string_leet:" then
    let token_parts := pySplitMax token ":" 1
    let case_pattern :=
      if token_parts.length > 1 ∧ pyStartsWith (token_parts.getD 1 "") "u:" then
        token_parts.getD 1 ""
      else "u:N"
    if pyStartsWith token "string_leet:" then Token.strLeet case_pattern 1
    else Token.str case_pattern 1
  else if pyStartsWith token "string" && strContains token ":u:" then
    match matchIdxDigits "string" token with
    | some digits =>
        let string_idx := if digits = "" then 1 else natOfDigits digits
        Token.str ("u:" ++ (pySplit token ":u:").getD 1 "") string_idx
    | none =>
        let parts := pySplitMax token ":" 2
        Token.str ("u:" ++ parts.getD 2 "") 1
  else if pyStartsWith token "character" && strContains token ":u:" then
    match matchIdxDigits "character" token with
    | some digits =>
        let char_idx := if digits = "" then 1 else natOfDigits digits
        Token.character ("u:" ++ (pySplit token ":u:").getD 1 "") char_idx
    | none =>
        let parts := pySplitMax token ":" 2
        Token.character ("u:" ++ parts.getD 2 "") 1
  else if token = "day" then Token.day
  else if token = "month" then Token.month
  else if token = "year" then Token.year
  else if token = "short_year" then Token.shortYear
  else if token = "full_date" then Token.fullDate
  else if token = "symbol" then Token.symbol
  else if token = "common_number" then Token.commonNumber
  else if token = "number" then Token.number
  else if pyStartsWith token "literal:" then
    Token.literal ((pySplitMax token ":" 1).getD 1 "")
  else Token.literal token

/-- `parse_rule` (`pwv.py` lines 226-297): split on `" + "` and classify
each token; never fails, over-literalizing at worst. -/
def parse_rule (rule_str : String) : List Token :=
  (pySplit rule_str " + ").map parseToken

/-! ## Combinatorial expansion (`pwv.py` lines 299-494) -/

/-- A partial configuration: the per-token slot array paired with the
case-insensitive used-strings set (modelled as a membership list). -/
abbrev Config := List (Option String) × List String

/-- One date's data inside `date_info_list` entries. -/
structure DateInfo where
  components : DateComponents
  nums : List String
deriving DecidableEq

/-- Builds one `date_info_list` entry as `generate_to_file` does
(`pwv.py` lines 620-623). -/
def mkDateInfo (d : String) : DateInfo :=
  ⟨parse_date d, generate_numbers_from_date d⟩

/-- The non-rule data available to token expansion: usable input strings,
raw numbers, symbol and common-number lists, and the current date's
components and derived numbers (all-absent/empty when the rule has no date
tokens). -/
structure ExpandCtx where
  validStrings : List String
  numbers : List String
  symbols : List String
  commonNumbers : List String
  comps : DateComponents
  dateNums : List String

/-- `available_strings` (`pwv.py` line 342): strings whose lowercase form
is unused, falling back to the first string when all are used. -/
def availableStrings (valid used : List String) : List String :=
  let avail := valid.filter (fun s => !(used.contains (strLower s)))
  if avail.isEmpty then valid.take 1 else avail

/-- `used_strings.add(...)`: set insertion on the membership list. -/
def addUsed (used : List String) (s : String) : List String :=
  if used.contains s then used else used ++ [s]

/-- The per-configuration successor list of one token: the body of the
`for config, used_strings in configs` loop (`pwv.py` lines 340-411),
which appends zero or more successors per configuration. -/
def expandToken (ctx : ExpandCtx) (i : Nat) (tok : Token) : Config → List Config
  | (slots, used) =>
    match tok with
    | .str cp _ =>
        (availableStrings ctx.validStrings used).map (fun s =>
          (slots.set i (some (apply_case_pattern cp s)), addUsed used (strLower s)))
    | .strLeet cp _ =>
        (availableStrings ctx.validStrings used).flatMap (fun s =>
          (generate_leet_variants (apply_case_pattern cp s)).map (fun v =>
            (slots.set i (some v), addUsed used (strLower s))))
    | .character cp _ =>
        (availableStrings ctx.validStrings used).flatMap (fun s =>
          if s = "" then []
          else [(slots.set i (some (apply_case_pattern cp (pyTakeChars s 1))), addUsed used (strLower s))])
    | .day =>
        if optTruthy ctx.comps.day then [(slots.set i ctx.comps.day, used)] else []
    | .month =>
        if optTruthy ctx.comps.month then [(slots.set i ctx.comps.month, used)] else []
    | .year =>
        if optTruthy ctx.comps.year then [(slots.set i ctx.comps.year, used)] else []
    | .shortYear =>
        if optTruthy ctx.comps.shortYear then [(slots.set i ctx.comps.shortYear, used)] else []
    | .fullDate => ctx.dateNums.map (fun v => (slots.set i (some v), used))
    | .symbol => ctx.symbols.map (fun v => (slots.set i (some v), used))
    | .commonNumber => ctx.commonNumbers.map (fun v => (slots.set i (some v), used))
    | .number => ctx.numbers.map (fun v => (slots.set i (some v), used))
    | .literal _ => [(slots, used)]

/-- One token step over the whole configuration list
(`pwv.py` lines 336-415): all successors in order, and — exactly as the
source's `if not new_configs and token_type != "literal"` with the leaked
loop variable does — when a non-literal token yields no successor at all,
the LAST configuration of the loop survives alone.  (With an empty
configuration list Python would raise `NameError`; that case is
unreachable, modelled here as the empty list.) -/
def stepConfigs (ctx : ExpandCtx) (i : Nat) (tok : Token) (configs : List Config) : List Config :=
  let newConfigs := configs.flatMap (expandToken ctx i tok)
  if newConfigs.isEmpty ∧ ¬ tok.isLiteral then
    match configs.getLast? with
    | some c => [c]
    | none => []
  else newConfigs

/-- `base_tokens` (`pwv.py` lines 327-332 and 424-429): literal slots
pre-filled, all other slots unbound. -/
def baseSlots (rule : List Token) : List (Option String) :=
  rule.map (fun t => match t with | .literal v => some v | _ => none)

/-- The strictly left-to-right token walk (`pwv.py` lines 336-415),
starting from the single base configuration with an empty used-set. -/
def runTokens (ctx : ExpandCtx) (rule : List Token) : List Config :=
  (rule.enum).foldl (fun cs p => stepConfigs ctx p.1 p.2 cs) [(baseSlots rule, [])]

/-- `join_tokens` plus the `None`-to-`""` fill (`pwv.py` lines 316-317,
418-419): space-joined when `has_spaces`, else concatenated. -/
def joinSlots (hasSpaces : Bool) (slots : List (Option String)) : String :=
  let filled := slots.map (fun o => o.getD "")
  if hasSpaces then pyIntercalate " " filled else pyIntercalate "" filled

/-- Rendering of fully-expanded configurations (`pwv.py` lines 417-421):
join slots, discard empty renders. -/
def renderConfigs (hasSpaces : Bool) (cs : List Config) : List String :=
  cs.filterMap (fun c =>
    let pwd := joinSlots hasSpaces c.1
    if pwd = "" then none else some pwd)

/-- The sequence of `all_passwords.add(...)` calls performed by
`generate_passwords_from_rule` (`pwv.py` lines 299-494), in order (with
duplicates).  When the rule has a date-dependent token the whole walk runs
once per date; otherwise it runs once, and — as in the source's second
branch, line 490 — the rendering always concatenates without spaces. -/
def genPasswordsList (rule : List Token) (strings numbers : List String)
    (dateInfoList : List DateInfo) (symbols commonNumbers : List String)
    (hasSpaces : Bool) : List String :=
  let validStrings := strings.filter (fun s => s != "")
  let hasDateComponents := (rule.filter Token.isDateType).length > 0
  if hasDateComponents then
    dateInfoList.flatMap (fun di =>
      renderConfigs hasSpaces
        (runTokens ⟨validStrings, numbers, symbols, commonNumbers, di.components, di.nums⟩ rule))
  else
    renderConfigs false
      (runTokens ⟨validStrings, numbers, symbols, commonNumbers, ⟨none, none, none, none⟩, []⟩ rule)

/-- First-occurrence deduplication: the contents of a Python set built by
successive `add` calls, in insertion order. -/
def dedupFirstAux (seen : List String) : List String → List String
  | [] => []
  | x :: xs => if seen.contains x then dedupFirstAux seen xs
               else x :: dedupFirstAux (x :: seen) xs

/-- See `dedupFirstAux`. -/
def dedupFirst (l : List String) : List String := dedupFirstAux [] l

/-- `generate_passwords_from_rule` (`pwv.py` lines 299-494): the resulting
SET of passwords, represented by its insertion-ordered duplicate-free
enumeration.  Its unspecified Python iteration order is modelled by the
`order` parameter of `generate_to_file`. -/
def generate_passwords_from_rule (rule : List Token) (strings numbers : List String)
    (dateInfoList : List DateInfo) (symbols commonNumbers : List String)
    (hasSpaces : Bool) : List String :=
  dedupFirst (genPasswordsList rule strings numbers dateInfoList symbols commonNumbers hasSpaces)

/-! ## Filtering and session logic (`pwv.py` lines 500-704) -/

/-- `DEFAULT_SYMBOLS` (`pwv.py` line 500). -/
def DEFAULT_SYMBOLS : List String := ["@", "#", "$", "%", "!", "&", "*", "-", "_"]

/-- `DEFAULT_COMMON_NUMBERS` (`pwv.py` lines 501-507). -/
def DEFAULT_COMMON_NUMBERS : List String :=
  ["1", "2", "3", "4", "5", "6", "7", "8", "9", "0",
   "123", "1234", "12345", "123456",
   "321", "4321", "54321",
   "123321", "12344321", "1234554321",
   "2020", "2021", "2022", "2023", "2024", "2025", "2026"]

/-- The per-candidate predicate `ok` of `filter_valid_passwords`
(`pwv.py` lines 583-592); `Option Nat` bounds follow Python truthiness
(`None` and `0` disable the bound). -/
def passwordOk (min_len max_len : Option Nat) (must_upper must_symbol : Bool)
    (p : String) : Bool :=
  if min_len.getD 0 ≠ 0 ∧ p.length < min_len.getD 0 then false
  else if max_len.getD 0 ≠ 0 ∧ p.length > max_len.getD 0 then false
  else if must_upper ∧ ¬ (p.toList.any charIsUpper) then false
  else if must_symbol ∧ ¬ (p.toList.any (fun c => !(charIsAlnum c))) then false
  else true

/-- `filter_valid_passwords` (`pwv.py` lines 581-593), applied to an
enumeration of the password set; preserves the enumeration order. -/
def filter_valid_passwords (passwords : List String) (min_len max_len : Option Nat)
    (must_upper must_symbol : Bool) : List String :=
  passwords.filter (passwordOk min_len max_len must_upper must_symbol)

/-- The session-record fields the core reads and writes
(`pwv.py` lines 516-537, 612-618). -/
structure Session where
  strings : List String
  dates : List String
  numbers : List String
  minLength : Option Nat
  maxLength : Option Nat
  mustIncludeUppercase : Bool
  mustIncludeSymbol : Bool
  currentRuleIndex : Nat
  currentRulePasswordCount : Nat
  isCompleted : Bool
  totalGenerated : Nat

/-- The `updates` dictionary returned by `generate_to_file`: either the
early-return `{"is_completed": True}` (`pwv.py` line 607) or the full
cursor update (`pwv.py` lines 694-699). -/
inductive SessionUpdates where
  | completedOnly : SessionUpdates
  | run (ruleIndex count : Nat) (completed : Bool) (totalGen : Nat) : SessionUpdates

/-- Application of the returned `updates` to the session record, as
`update_session(session_id, **updates)` does for the modelled fields. -/
def applyUpdates (s : Session) : SessionUpdates → Session
  | .completedOnly => { s with isCompleted := true }
  | .run ri cnt comp tg =>
      { s with currentRuleIndex := ri, currentRulePasswordCount := cnt,
               isCompleted := comp, totalGenerated := tg }

/-- The observable result of one `generate_to_file` call: the written
count, the emitted lines in order, whether an output artifact was created
(the early return creates none), and the session updates. -/
structure GenResult where
  totalWritten : Nat
  written : List String
  artifactCreated : Bool
  updates : SessionUpdates

/-- The per-rule recomputation inside the `while` loop of
`generate_to_file` (`pwv.py` lines 644-658): parse the rule line, detect
space-joined rendering, expand, and filter with the session's
constraints; `order` models the iteration order of the Python set of
passwords. -/
def ruleValidList (order : List String → List String) (sess : Session)
    (dateInfos : List DateInfo) (ruleStr : String) : List String :=
  let rule := parse_rule ruleStr
  let hasSpaces := strContains ruleStr " + " && strContains ruleStr "literal: "
  let allPasswords := generate_passwords_from_rule rule sess.strings sess.numbers
    dateInfos DEFAULT_SYMBOLS DEFAULT_COMMON_NUMBERS hasSpaces
  filter_valid_passwords (order allPasswords)
    sess.minLength sess.maxLength sess.mustIncludeUppercase sess.mustIncludeSymbol

/-- The `while` loop of `generate_to_file` (`pwv.py` lines 643-678),
structurally recursive on fuel; `generate_to_file` supplies
`fuel = rules.length`, which is exact because every continuing iteration
advances the rule index.  Returns the emitted lines, the final rule index
and the final within-rule count. -/
def genLoop (order : List String → List String) (sess : Session)
    (dateInfos : List DateInfo) (rules : List String) (limit : Nat) :
    Nat → Nat → Nat → Nat → List String → List String × Nat × Nat
  | 0, ri, cnt, _, acc => (acc, ri, cnt)
  | fuel + 1, ri, cnt, tw, acc =>
    if tw < limit ∧ ri < rules.length then
      let valid0 := ruleValidList order sess dateInfos (rules.getD ri "")
      let valid := if ri = sess.currentRuleIndex
        then valid0.drop sess.currentRulePasswordCount else valid0
      let emitted := valid.take (limit - tw)
      let tw' := tw + emitted.length
      let cnt' := cnt + emitted.length
      if valid.length ≤ cnt' then
        genLoop order sess dateInfos rules limit fuel (ri + 1) 0 tw' (acc ++ emitted)
      else (acc ++ emitted, ri, cnt')
    else (acc, ri, cnt)

/-- `generate_to_file` (`pwv.py` lines 595-704): early return when the
cursor is at or past the end of the rule list, otherwise the bounded
resumable walk over the rules, with the final cursor, completion flag and
accumulated total in the returned updates. -/
def generate_to_file (order : List String → List String) (sess : Session)
    (rules : List String) (password_limit : Nat) : GenResult :=
  if rules.length ≤ sess.currentRuleIndex then
    ⟨0, [], false, .completedOnly⟩
  else
    let dateInfos := sess.dates.map mkDateInfo
    let r := genLoop order sess dateInfos rules password_limit rules.length
      sess.currentRuleIndex sess.currentRulePasswordCount 0 []
    ⟨r.1.length, r.1, true,
     .run r.2.1 r.2.2 (decide (rules.length ≤ r.2.1)) (sess.totalGenerated + r.1.length)⟩

/-! ## Specification-side definitions used for comparison -/

/-- The fallback rule exactly as the specification words it, PER partial
configuration: a configuration whose token expansion yields no successor
passes through unmodified.  Differs from the source's `stepConfigs` only
in the scope of the fallback; used to compare against the source. -/
def stepConfigsPerConfig (ctx : ExpandCtx) (i : Nat) (tok : Token)
    (configs : List Config) : List Config :=
  configs.flatMap (fun cfg =>
    let r := expandToken ctx i tok cfg
    if r.isEmpty ∧ ¬ tok.isLiteral then [cfg] else r)

/-- The token walk under the specification's per-configuration fallback. -/
def runTokensPerConfig (ctx : ExpandCtx) (rule : List Token) : List Config :=
  (rule.enum).foldl (fun cs p => stepConfigsPerConfig ctx p.1 p.2 cs) [(baseSlots rule, [])]

/-- `generate_passwords_from_rule` as the specification's fallback rule
would have it (per-configuration pass-through); compared with the source
definition in the C3 counterexample. -/
def genPasswordsPerConfigFallback (rule : List Token) (strings numbers : List String)
    (dateInfoList : List DateInfo) (symbols commonNumbers : List String)
    (hasSpaces : Bool) : List String :=
  let validStrings := strings.filter (fun s => s != "")
  let hasDateComponents := (rule.filter Token.isDateType).length > 0
  dedupFirst (
    if hasDateComponents then
      dateInfoList.flatMap (fun di =>
        renderConfigs hasSpaces
          (runTokensPerConfig ⟨validStrings, numbers, symbols, commonNumbers, di.components, di.nums⟩ rule))
    else
      renderConfigs false
        (runTokensPerConfig ⟨validStrings, numbers, symbols, commonNumbers, ⟨none, none, none, none⟩, []⟩ rule))

/-- The per-character substitution-option count, stated from the
specification's substitution table: `a`, `e`, `i`, `o` have 2 options,
`s` has 3 (`{s,$,5}`), `t` has 2 (`{t,7}` — the claim's `t→3` is wrong),
every other character 1, looked up case-insensitively. -/
def optionCount (c : Char) : Nat :=
  if charLower c ∈ ['a', 'e', 'i', 'o'] then 2
  else if charLower c = 's' then 3
  else if charLower c = 't' then 2
  else 1

/-! ## Claim-specific concrete data -/

/-- A session over three eight-character numbers whose cursor sits
mid-rule at `(0, 1)` — exactly the state reached from a fresh session by
one run with limit 1 (established inside the C1 theorem). -/
def pwvC1Session : Session :=
  ⟨[], [], ["11111111", "22222222", "33333333"], some 8, none, false, false, 0, 0, false, 0⟩

/-- A one-rule list for the C1 resumption scenario. -/
def pwvC1Rules : List String := ["number"]

/-- The session state after one fresh run with limit 1 over `pwvC1Rules`:
cursor `(0, 1)`, reached from `pwvC1Session` (shown inside the C1
theorem). -/
def pwvC1AfterFirst : Session :=
  applyUpdates pwvC1Session (generate_to_file id pwvC1Session pwvC1Rules 1).updates

/-- The session state after a further run with limit 1 from
`pwvC1AfterFirst`. -/
def pwvC1AfterSecond : Session :=
  applyUpdates pwvC1AfterFirst (generate_to_file id pwvC1AfterFirst pwvC1Rules 1).updates

/-- A completed session (cursor past the single rule) for C9's witness. -/
def pwvFrameSession : Session :=
  ⟨["a"], [], [], some 8, none, false, false, 2, 5, true, 7⟩

/-- A fresh session for C4's witness. -/
def pwvC4Session : Session :=
  ⟨["a"], [], [], some 8, none, false, false, 0, 0, false, 0⟩

/-- Expansion data with one input string and no numbers, for C3's witness. -/
def pwvC3Ctx : ExpandCtx := ⟨["anna"], [], [], [], ⟨none, none, none, none⟩, []⟩

/-- Two partial configurations reaching a zero-successor token, for C3's
witness. -/
def pwvC3Configs : List Config := [([none, none], []), ([some "x", none], ["anna"])]

/-! ## Helper lemmas -/

theorem flatMap_eq_nil_of_forall {α β : Type} (f : α → List β) :
    ∀ l : List α, (∀ a ∈ l, f a = []) → l.flatMap f = []
  | [], _ => rfl
  | x :: xs, h => by
      rw [List.flatMap_cons, h x (List.mem_cons_self x xs), List.nil_append]
      exact flatMap_eq_nil_of_forall f xs (fun a ha => h a (List.mem_cons_of_mem x ha))

theorem flatMap_id_of_forall {α : Type} (f : α → List α)
    (hf : ∀ a, f a = [a]) : ∀ l : List α, l.flatMap f = l
  | [] => rfl
  | x :: xs => by
      rw [List.flatMap_cons, hf x, flatMap_id_of_forall f hf xs]
      rfl

theorem sum_map_constNat {α : Type} (n : Nat) :
    ∀ l : List α, (l.map (fun _ => n)).sum = l.length * n
  | [] => by simp
  | x :: xs => by
      simp [sum_map_constNat n xs, Nat.succ_mul, Nat.add_comm]

/-! ## Claim C5 -/

/-- Claim C5 counterexample: the bare rule text `string_leet` (no colon)
is not recognized by `parse_rule` — it degrades to a literal token, so the
expansion yields the single candidate `string_leet`, not the four leet
variants of `eli` the claim asserts. -/
theorem C5_counterexample :
    parse_rule "string_leet" = [Token.literal "string_leet"] ∧
    generate_passwords_from_rule (parse_rule "string_leet") ["Eli"] [] [] [] [] false
      = ["string_leet"] ∧
    ¬ ("eli" ∈ generate_passwords_from_rule (parse_rule "string_leet") ["Eli"] [] [] [] [] false) := by
  decide

/-- Claim C5 (amended): with the trailing colon the parser requires —
rule text `string_leet:` — and profile strings `["Eli"]`, parsing and
expanding yields exactly the candidate set
`{eli, 3li, el1, 3l1}`: the token binds the input string, lowercases it
by default, and expands it into all leet variants. -/
theorem C5_leet_rule_amended :
    parse_rule "string_leet:" = [Token.strLeet "u:N" 1] ∧
    (generate_passwords_from_rule (parse_rule "string_leet:") ["Eli"] [] [] [] [] false).Perm
      ["eli", "3li", "el1", "3l1"] := by
  decide

/-! ## Claim C6 -/

/-- Claim C6 counterexample: a pattern that does not start with `u:` is
returned UNCHANGED by `apply_case_pattern`, not lowercased as the claim's
"any unrecognized pattern returns the value lowercased" asserts. -/
theorem C6_counterexample :
    apply_case_pattern "x" "ABC" = "ABC" ∧ apply_case_pattern "x" "ABC" ≠ "abc" := by
  decide

/-- Claim C6 (amended): `u:A` uppercases every character; `u:N` (the
default) lowercases; a pattern that does not start with `u:` returns the
value UNCHANGED; a `u:`-pattern other than `u:A`/`u:N` is treated as a
position list — the value is lowercased, listed in-range 1-based positions
are uppercased, `L` uppercases the last character, and out-of-range or
non-numeric entries are silently ignored (so a `u:`-pattern with no valid
position returns the lowercased value). -/
theorem C6_case_pattern_amended :
    (∀ v : String, apply_case_pattern "u:A" v = strUpper v) ∧
    (∀ v : String, apply_case_pattern "u:N" v = strLower v) ∧
    (∀ p v : String, pyStartsWith p "u:" = false → apply_case_pattern p v = v) ∧
    apply_case_pattern "u:A" "abc" = "ABC" ∧
    apply_case_pattern "u:N" "ABC" = "abc" ∧
    apply_case_pattern "u:1,3" "cat" = "CaT" ∧
    apply_case_pattern "u:L" "cat" = "caT" ∧
    apply_case_pattern "u:9" "cat" = "cat" ∧
    apply_case_pattern "u:x,2" "cat" = "cAt" := by
  refine ⟨fun v => rfl, fun v => rfl, fun p v hp => ?_,
    by decide, by decide, by decide, by decide, by decide, by decide⟩
  unfold apply_case_pattern
  rw [if_pos]
  simp [hp]

/-- Claim C6 witness: the amended third clause at a concrete input. -/
theorem C6_case_pattern_amended_witness :
    apply_case_pattern "xyz" "ABC" = "ABC" :=
  C6_case_pattern_amended.2.2.1 "xyz" "ABC" (by decide)

/-! ## Claim C7 -/

/-- Claim C7 counterexample: `a/1/2000` splits into exactly three
`/`-parts, yet `generate_numbers_from_date` returns the empty list (the
`int` conversion of the day part fails), not the twelve entries the claim
asserts for every three-part string. -/
theorem C7_counterexample :
    (pySplit "a/1/2000" "/").length = 3 ∧
    generate_numbers_from_date "a/1/2000" = [] := by
  decide

/-- Claim C7 (amended): for every string that splits on `/` into exactly
three parts WHOSE DAY AND MONTH PARTS PARSE AS INTEGERS,
`generate_numbers_from_date` returns exactly twelve strings in the fixed
documented order (day and month integer-normalized, year
whitespace-stripped); for every other string — a three-part string whose
day or month does not parse as an integer, or any string without exactly
three parts — the result is the empty list. -/
theorem C7_date_numbers_amended :
    (∀ (d a b c : String), pySplit d "/" = [a, b, c] →
      ∀ (i j : Int), pyParseInt a = some i → pyParseInt b = some j →
      generate_numbers_from_date d =
        [pyStripS c,
         takeRightStr 2 (pyStripS c),
         toString i ++ toString j,
         toString i ++ toString j ++ pyStripS c,
         toString i ++ toString j ++ takeRightStr 2 (pyStripS c),
         toString j ++ toString i,
         toString j ++ toString i ++ pyStripS c,
         toString j ++ toString i ++ takeRightStr 2 (pyStripS c),
         pyStripS c ++ toString j ++ toString i,
         takeRightStr 2 (pyStripS c) ++ toString j ++ toString i,
         pyStripS c ++ toString i ++ toString j,
         takeRightStr 2 (pyStripS c) ++ toString i ++ toString j]) ∧
    (∀ (d a b c : String), pySplit d "/" = [a, b, c] →
      (pyParseInt a = none ∨ pyParseInt b = none) →
      generate_numbers_from_date d = []) ∧
    (∀ d : String, (pySplit d "/").length ≠ 3 → generate_numbers_from_date d = []) := by
  refine ⟨?_, ?_, ?_⟩
  · intro d a b c hsplit i j ha hb
    unfold generate_numbers_from_date
    rw [hsplit]
    simp only [ha, hb]
  · intro d a b c hsplit h
    unfold generate_numbers_from_date
    rw [hsplit]
    rcases ha : pyParseInt a with _ | ia <;> rcases hb : pyParseInt b with _ | ib <;>
      simp_all
  · intro d h
    unfold generate_numbers_from_date
    rcases hs : pySplit d "/" with _ | ⟨x, _ | ⟨y, _ | ⟨z, _ | ⟨u, l⟩⟩⟩⟩
    · rfl
    · rfl
    · rfl
    · rw [hs] at h; simp at h
    · rfl

/-- Claim C7 witness: the date `5/7/2003` from the specification's
scenario, with the twelve derived strings fully evaluated. -/
theorem C7_date_numbers_amended_witness :
    generate_numbers_from_date "5/7/2003" =
      ["2003", "03", "57", "572003", "5703", "75", "752003", "7503",
       "200375", "0375", "200357", "0357"] := by
  have h := C7_date_numbers_amended.1 "5/7/2003" "5" "7" "2003" (by decide) 5 7
    (by decide) (by decide)
  rw [h]
  decide

/-! ## Claim C2 -/

/-- Claim C2: the pipeline's output order is the iteration order of a
Python `str` set, which is not fixed across processes (hash
randomization).  Concretely: `["anna", "bob"]` and `["bob", "anna"]` are
both enumerations of the very same password set produced for rule
`string:`, yet `filter_valid_passwords` returns different ordered lists
for them — so the ordered output is not determined by the rule text and
profile alone, contradicting the claimed cross-process determinism. -/
theorem C2_order_dependence :
    generate_passwords_from_rule (parse_rule "string:") ["anna", "bob"] [] [] [] [] false
      = ["anna", "bob"] ∧
    (["bob", "anna"] : List String).Perm
      (generate_passwords_from_rule (parse_rule "string:") ["anna", "bob"] [] [] [] [] false) ∧
    filter_valid_passwords ["anna", "bob"] none none false false ≠
      filter_valid_passwords ["bob", "anna"] none none false false := by
  decide

/-! ## Claim C10 -/

/-- Claim C10: a rule containing at least one date-dependent token
expands to nothing when the profile's date list is empty — the whole
expansion is gated behind the per-date loop, which never runs. -/
theorem C10_empty_dates (rule : List Token) (strings numbers symbols commonNumbers : List String)
    (hasSpaces : Bool) (t : Token) (ht : t ∈ rule) (hd : t.isDateType = true) :
    generate_passwords_from_rule rule strings numbers [] symbols commonNumbers hasSpaces = [] := by
  have hne : rule.filter Token.isDateType ≠ [] :=
    List.ne_nil_of_mem (List.mem_filter.mpr ⟨ht, hd⟩)
  have hpos : 0 < (rule.filter Token.isDateType).length := List.length_pos.mpr hne
  simp only [generate_passwords_from_rule, genPasswordsList]
  rw [if_pos hpos]
  rfl

/-- Claim C10 witness: a bare `day` rule with a string available but no
dates produces nothing. -/
theorem C10_empty_dates_witness :
    generate_passwords_from_rule [Token.day] ["a"] [] [] [] [] false = [] :=
  C10_empty_dates [Token.day] ["a"] [] [] [] false Token.day (by decide) rfl

/-! ## Claim C9 -/

/-- Claim C9: when the session's cursor is at or past the end of the rule
list, `generate_to_file` emits nothing, creates no output artifact, and
its updates leave the rule index, within-rule count and total unchanged
(only the completed flag is (re)asserted). -/
theorem C9_completed_noop (order : List String → List String) (sess : Session)
    (rules : List String) (limit : Nat) (h : rules.length ≤ sess.currentRuleIndex) :
    (generate_to_file order sess rules limit).written = [] ∧
    (generate_to_file order sess rules limit).totalWritten = 0 ∧
    (generate_to_file order sess rules limit).artifactCreated = false ∧
    (applyUpdates sess (generate_to_file order sess rules limit).updates).currentRuleIndex
      = sess.currentRuleIndex ∧
    (applyUpdates sess (generate_to_file order sess rules limit).updates).currentRulePasswordCount
      = sess.currentRulePasswordCount ∧
    (applyUpdates sess (generate_to_file order sess rules limit).updates).totalGenerated
      = sess.totalGenerated ∧
    (applyUpdates sess (generate_to_file order sess rules limit).updates).isCompleted = true := by
  unfold generate_to_file
  rw [if_pos h]
  simp [applyUpdates]

/-- Claim C9 witness: a completed two-rules-past-the-end session is left
untouched by a run with limit 5. -/
theorem C9_completed_noop_witness :
    (generate_to_file id pwvFrameSession ["number"] 5).written = [] ∧
    (generate_to_file id pwvFrameSession ["number"] 5).totalWritten = 0 ∧
    (generate_to_file id pwvFrameSession ["number"] 5).artifactCreated = false ∧
    (applyUpdates pwvFrameSession (generate_to_file id pwvFrameSession ["number"] 5).updates).currentRuleIndex
      = pwvFrameSession.currentRuleIndex ∧
    (applyUpdates pwvFrameSession (generate_to_file id pwvFrameSession ["number"] 5).updates).currentRulePasswordCount
      = pwvFrameSession.currentRulePasswordCount ∧
    (applyUpdates pwvFrameSession (generate_to_file id pwvFrameSession ["number"] 5).updates).totalGenerated
      = pwvFrameSession.totalGenerated ∧
    (applyUpdates pwvFrameSession (generate_to_file id pwvFrameSession ["number"] 5).updates).isCompleted = true :=
  C9_completed_noop id pwvFrameSession ["number"] 5 (by decide)

/-! ## Claim C3 -/

/-- Claim C3 counterexample: with strings `["Anna", "Bob"]` and an empty
number list, the rule `string: + number` reaches the `number` token with
TWO partial configurations, both of which produce zero successors; the
source's aggregate fallback keeps only the last one, so the `anna`
configuration is silently discarded — the result is `{bob}`, while the
claimed per-configuration pass-through (`genPasswordsPerConfigFallback`)
yields `{anna, bob}`. -/
theorem C3_counterexample :
    generate_passwords_from_rule (parse_rule "string: + number") ["Anna", "Bob"] [] [] [] [] false
      = ["bob"] ∧
    ¬ ("anna" ∈ generate_passwords_from_rule (parse_rule "string: + number")
        ["Anna", "Bob"] [] [] [] [] false) ∧
    genPasswordsPerConfigFallback (parse_rule "string: + number") ["Anna", "Bob"] [] [] [] [] false
      = ["anna", "bob"] := by
  decide

/-- Claim C3 (amended): the fallback is per TOKEN, not per configuration —
if a non-literal token produces zero successor configurations for every
current partial configuration, the LAST partial configuration passes
through unmodified and the others are discarded; in particular the
configuration list never becomes empty, so a rule is never rejected
wholesale because one optional data class is missing. -/
theorem C3_step_fallback (ctx : ExpandCtx) (i : Nat) (tok : Token) (cs : List Config)
    (hne : cs ≠ []) :
    stepConfigs ctx i tok cs ≠ [] ∧
    (tok.isLiteral = false →
      (∀ cfg ∈ cs, expandToken ctx i tok cfg = []) →
      stepConfigs ctx i tok cs = [cs.getLast hne]) := by
  constructor
  · by_cases hl : tok.isLiteral = true
    · have hid : ∀ a : Config, expandToken ctx i tok a = [a] := by
        intro a
        obtain ⟨s, u⟩ := a
        cases tok <;> first | rfl | simp [Token.isLiteral] at hl
      simp only [stepConfigs]
      rw [flatMap_id_of_forall _ hid cs, if_neg (fun hcontra => hcontra.2 hl)]
      exact hne
    · simp only [stepConfigs]
      by_cases hem : (cs.flatMap (expandToken ctx i tok)).isEmpty = true
      · rw [if_pos ⟨hem, hl⟩, List.getLast?_eq_getLast cs hne]
        simp
      · rw [if_neg (fun hcontra => hem hcontra.1)]
        simpa using hem
  · intro hl hall
    have h0 : cs.flatMap (expandToken ctx i tok) = [] :=
      flatMap_eq_nil_of_forall _ cs hall
    simp only [stepConfigs]
    rw [h0, if_pos ⟨rfl, by simp [hl]⟩, List.getLast?_eq_getLast cs hne]

/-- Claim C3 witness: two configurations reach a `number` token with an
empty number list; the step keeps exactly the last configuration. -/
theorem C3_step_fallback_witness :
    stepConfigs pwvC3Ctx 1 Token.number pwvC3Configs ≠ [] ∧
    stepConfigs pwvC3Ctx 1 Token.number pwvC3Configs
      = [pwvC3Configs.getLast (by decide)] :=
  ⟨(C3_step_fallback pwvC3Ctx 1 Token.number pwvC3Configs (by decide)).1,
   (C3_step_fallback pwvC3Ctx 1 Token.number pwvC3Configs (by decide)).2 rfl (by decide)⟩

/-! ## Claim C8 -/

theorem charToNat_ofNat (n : Nat) (h : n < 55296) : (Char.ofNat n).toNat = n := by
  rw [Char.ofNat, dif_pos (Or.inl h : n.isValidChar)]
  simp [Char.ofNatAux, Char.toNat, UInt32.toNat]

theorem charIsLower_charUpper (y : Char) : charIsLower (charUpper y) = false := by
  unfold charUpper
  by_cases hc : 97 ≤ y.toNat ∧ y.toNat ≤ 122
  · rw [if_pos hc]
    have h1 : (Char.ofNat (y.toNat - 32)).toNat = y.toNat - 32 :=
      charToNat_ofNat _ (by omega)
    simp [charIsLower, h1]
    omega
  · rw [if_neg hc]
    simp [charIsLower]
    omega

theorem leetOptions_upper (c : Char) (hu : charIsUpper c = true) :
    ∀ x ∈ leetOptions c, charIsLower x = false := by
  intro x hx
  unfold leetOptions at hx
  rw [if_pos hu] at hx
  rw [List.mem_map] at hx
  obtain ⟨y, _, rfl⟩ := hx
  exact charIsLower_charUpper y

theorem leetOptions_notUpper (c : Char) (hu : charIsUpper c = false) :
    ∀ x ∈ leetOptions c, charIsUpper x = false := by
  intro x hx
  unfold leetOptions at hx
  rw [if_neg (by simp [hu])] at hx
  rcases htab : leetTable (charLower c) with _ | l
  · rw [htab] at hx
    simp at hx
    subst hx
    exact hu
  · rw [htab] at hx
    unfold leetTable at htab
    split_ifs at htab <;>
      first
      | exact Option.noConfusion htab
      | (injection htab with he; subst he; fin_cases hx <;> decide)

theorem leetOptions_length (c : Char) : (leetOptions c).length = optionCount c := by
  unfold leetOptions optionCount leetTable
  by_cases h1 : charLower c = 'a'
  · simp [h1, apply_ite List.length]
  · by_cases h2 : charLower c = 'e'
    · simp [h1, h2, apply_ite List.length]
    · by_cases h3 : charLower c = 'i'
      · simp [h1, h2, h3, apply_ite List.length]
      · by_cases h4 : charLower c = 'o'
        · simp [h1, h2, h3, h4, apply_ite List.length]
        · by_cases h5 : charLower c = 's'
          · simp [h1, h2, h3, h4, h5, apply_ite List.length]
          · by_cases h6 : charLower c = 't'
            · simp [h1, h2, h3, h4, h5, h6, apply_ite List.length]
            · simp [h1, h2, h3, h4, h5, h6, apply_ite List.length]

theorem cartesianChars_length : ∀ ls : List (List Char),
    (cartesianChars ls).length = (ls.map List.length).prod
  | [] => rfl
  | os :: rest => by
      simp only [cartesianChars, List.length_flatMap, List.map_cons, List.prod_cons]
      calc (os.map fun o => ((cartesianChars rest).map (fun t => o :: t)).length).sum
          = (os.map fun _ => (rest.map List.length).prod).sum := by
            refine congrArg List.sum (List.map_congr_left (fun o _ => ?_))
            rw [List.length_map, cartesianChars_length rest]
        _ = os.length * (rest.map List.length).prod := sum_map_constNat _ os

theorem cartesianChars_mem : ∀ (ls : List (List Char)) (v : List Char),
    v ∈ cartesianChars ls →
    v.length = ls.length ∧
      ∀ (i : Nat) (h1 : i < v.length) (h2 : i < ls.length),
        v.get ⟨i, h1⟩ ∈ ls.get ⟨i, h2⟩
  | [], v, hv => by
      simp only [cartesianChars, List.mem_singleton] at hv
      subst hv
      exact ⟨rfl, fun i h1 h2 => absurd h2 (Nat.not_lt_zero i)⟩
  | os :: rest, v, hv => by
      simp only [cartesianChars, List.mem_flatMap, List.mem_map] at hv
      obtain ⟨o, ho, t, ht, rfl⟩ := hv
      obtain ⟨hlen, hmem⟩ := cartesianChars_mem rest t ht
      refine ⟨by simp [hlen], ?_⟩
      intro i h1 h2
      match i with
      | 0 => simpa using ho
      | Nat.succ m =>
          simp only [List.get_eq_getElem, List.getElem_cons_succ]
          have := hmem m (by simpa using h1) (by simpa using h2)
          simpa [List.get_eq_getElem] using this

/-- Claim C8 counterexample: the claim gives `t` THREE substitution
options, but the table maps `t` to `{t, 7}` — `generate_leet_variants "t"`
has 2 variants, not 3. -/
theorem C8_counterexample :
    generate_leet_variants "t" = ["t", "7"] ∧ (generate_leet_variants "t").length ≠ 3 := by
  decide

/-- Claim C8 (amended): `generate_leet_variants w` has exactly as many
variants as the product, over the characters of `w`, of the per-character
substitution-option count (`a`, `e`, `i`, `o` have 2 options, `s` has 3,
`t` has 2, all others 1, looked up case-insensitively), and every variant has
the same length as `w`, each position's case class mirroring the original
character's case (an uppercase original never yields a lowercase variant
character, and a non-uppercase original never yields an uppercase one). -/
theorem C8_leet_variants (w : String) :
    (generate_leet_variants w).length = (w.toList.map optionCount).prod ∧
    ∀ v ∈ generate_leet_variants w,
      v.length = w.length ∧
      ∀ (i : Nat) (h1 : i < v.toList.length) (h2 : i < w.toList.length),
        (charIsUpper (w.toList.get ⟨i, h2⟩) = true →
          charIsLower (v.toList.get ⟨i, h1⟩) = false) ∧
        (charIsUpper (w.toList.get ⟨i, h2⟩) = false →
          charIsUpper (v.toList.get ⟨i, h1⟩) = false) := by
  constructor
  · unfold generate_leet_variants
    rw [List.length_map, cartesianChars_length, List.map_map]
    exact congrArg List.prod (List.map_congr_left (fun c _ => leetOptions_length c))
  · intro v hv
    unfold generate_leet_variants at hv
    rw [List.mem_map] at hv
    obtain ⟨u, hu, rfl⟩ := hv
    obtain ⟨hlen, hmem⟩ := cartesianChars_mem (w.toList.map leetOptions) u hu
    have hlen' : u.length = w.toList.length := by simpa using hlen
    refine ⟨hlen', ?_⟩
    intro i h1 h2
    have hget := hmem i (by simpa using h1) (by simpa using h2)
    have hopt : (w.toList.map leetOptions).get ⟨i, by simpa using h2⟩
        = leetOptions (w.toList.get ⟨i, h2⟩) := by
      simp [List.get_eq_getElem]
    rw [hopt] at hget
    have hvget : (String.mk u).toList.get ⟨i, h1⟩ = u.get ⟨i, by simpa using h1⟩ := rfl
    rw [hvget]
    exact ⟨fun hUp => leetOptions_upper _ hUp _ hget,
           fun hNot => leetOptions_notUpper _ hNot _ hget⟩

/-- Claim C8 witness: the word `Ab` has variants `Ab` and `@b`; the
length, count and per-position case facts instantiated at `@b`. -/
theorem C8_leet_variants_witness :
    (generate_leet_variants "Ab").length = ("Ab".toList.map optionCount).prod ∧
    ("@b" : String).length = ("Ab" : String).length ∧
    charIsLower (("@b" : String).toList.get ⟨0, by decide⟩) = false :=
  ⟨(C8_leet_variants "Ab").1,
   ((C8_leet_variants "Ab").2 "@b" (by decide)).1,
   (((C8_leet_variants "Ab").2 "@b" (by decide)).2 0 (by decide) (by decide)).1 (by decide)⟩

/-! ## Claim C4 -/

theorem genLoop_ruleIndex_le (order : List String → List String) (sess : Session)
    (dateInfos : List DateInfo) (rules : List String) (limit : Nat) :
    ∀ (fuel ri cnt tw : Nat) (acc : List String), ri ≤ rules.length →
      (genLoop order sess dateInfos rules limit fuel ri cnt tw acc).2.1 ≤ rules.length := by
  intro fuel
  induction fuel with
  | zero =>
      intro ri cnt tw acc h
      simpa only [genLoop] using h
  | succ n ih =>
      intro ri cnt tw acc h
      simp only [genLoop]
      by_cases hcond : tw < limit ∧ ri < rules.length
      · rw [if_pos hcond]
        generalize (if ri = sess.currentRuleIndex
          then (ruleValidList order sess dateInfos (rules.getD ri "")).drop
            sess.currentRulePasswordCount
          else ruleValidList order sess dateInfos (rules.getD ri "")) = v
        split
        · exact ih (ri + 1) 0 _ _ (by omega)
        · exact h
      · rw [if_neg hcond]
        exact h

/-- Claim C4: starting from a session whose rule index is within bounds,
after a `generate_to_file` run and the application of its returned
updates, the session satisfies `ruleIndex ≤ totalRules`,
`completed ↔ ruleIndex = totalRules`, and `0 ≤ countWithinRule`. -/
theorem C4_cursor_invariant (order : List String → List String) (sess : Session)
    (rules : List String) (limit : Nat) (hpre : sess.currentRuleIndex ≤ rules.length) :
    (applyUpdates sess (generate_to_file order sess rules limit).updates).currentRuleIndex
        ≤ rules.length ∧
      ((applyUpdates sess (generate_to_file order sess rules limit).updates).isCompleted = true ↔
        (applyUpdates sess (generate_to_file order sess rules limit).updates).currentRuleIndex
          = rules.length) ∧
      0 ≤ (applyUpdates sess
        (generate_to_file order sess rules limit).updates).currentRulePasswordCount := by
  unfold generate_to_file
  by_cases hc : rules.length ≤ sess.currentRuleIndex
  · rw [if_pos hc]
    have heq : sess.currentRuleIndex = rules.length := Nat.le_antisymm hpre hc
    simp [applyUpdates, heq]
  · rw [if_neg hc]
    have hlt : sess.currentRuleIndex < rules.length := Nat.lt_of_not_le hc
    have hri := genLoop_ruleIndex_le order sess (sess.dates.map mkDateInfo) rules limit
      rules.length sess.currentRuleIndex sess.currentRulePasswordCount 0 [] (Nat.le_of_lt hlt)
    simp only [applyUpdates]
    refine ⟨hri, ?_, Nat.zero_le _⟩
    simp only [decide_eq_true_eq]
    omega

/-- Claim C4 witness: a fresh session over one rule, run with limit 0. -/
theorem C4_cursor_invariant_witness :
    (applyUpdates pwvC4Session (generate_to_file id pwvC4Session ["number"] 0).updates).currentRuleIndex
        ≤ (["number"] : List String).length ∧
      ((applyUpdates pwvC4Session (generate_to_file id pwvC4Session ["number"] 0).updates).isCompleted = true ↔
        (applyUpdates pwvC4Session (generate_to_file id pwvC4Session ["number"] 0).updates).currentRuleIndex
          = (["number"] : List String).length) ∧
      0 ≤ (applyUpdates pwvC4Session
        (generate_to_file id pwvC4Session ["number"] 0).updates).currentRulePasswordCount :=
  C4_cursor_invariant id pwvC4Session ["number"] 0 (by decide)

/-! ## Claim C1 -/

/-- Claim C1: the resumption property FAILS on the code.  From the fresh
session `pwvC1Session` (three eight-character numbers, one `number`
rule whose filtered list has three entries), a run with limit 1 emits the
first candidate and leaves the reachable cursor `(0, 1)`.  From that
session, a run with `k1 = 1` emits one candidate but — because the
exhaustion test compares the running count (which still includes the
prior run's consumption) against the SLICED list's length
(`new_current_rule_password_count >= len(valid_passwords)` at
`pwv.py` line 674) — wrongly marks the rule exhausted and the session
completed, so the following `k2 = 1` run emits nothing; a single run with
`k1 + k2 = 2` from the same state emits two candidates.  The two-run
concatenation therefore differs from the single run, and the candidate
`33333333` is silently lost. -/
theorem C1_resume_code_bug :
    (generate_to_file id pwvC1Session pwvC1Rules 1).written = ["11111111"] ∧
    pwvC1AfterFirst.currentRuleIndex = 0 ∧
    pwvC1AfterFirst.currentRulePasswordCount = 1 ∧
    pwvC1AfterFirst.isCompleted = false ∧
    (generate_to_file id pwvC1AfterFirst pwvC1Rules 1).written = ["22222222"] ∧
    pwvC1AfterSecond.isCompleted = true ∧
    (generate_to_file id pwvC1AfterSecond pwvC1Rules 1).written = [] ∧
    (generate_to_file id pwvC1AfterFirst pwvC1Rules 2).written = ["22222222", "33333333"] ∧
    (generate_to_file id pwvC1AfterFirst pwvC1Rules 1).written ++
        (generate_to_file id pwvC1AfterSecond pwvC1Rules 1).written ≠
      (generate_to_file id pwvC1AfterFirst pwvC1Rules 2).written := by
  decide
